import Mathlib

/-!
The header `runtime/port/sysvipc/j9shsemun.h`

A model of the header as a transformer of the state of a compilation unit:
the preprocessor symbols that are defined, the system headers that have been
included, the aggregate type definitions that are visible, and the tags that
have been declared by a mention only.  The content of the system header `<sys/types.h>` belongs to the platform and is a parameter.
-/

namespace J9shsemun

/-- C types that occur in the member declarations of the header. -/
inductive CType where
  | int
  | unsignedShortInt
  | struct (tag : String)
  | pointer (target : CType)
  deriving DecidableEq, Repr

/-- One member declaration `type name;` of an aggregate. -/
structure Member where
  type : CType
  name : String
  deriving DecidableEq, Repr

/-- The two kinds of aggregate that can carry a tag. -/
inductive AggKind where
  | struct
  | union
  deriving DecidableEq, Repr

/-- A definition `kind tag { members };` at file scope. -/
structure TypeDef where
  kind : AggKind
  tag : String
  members : List Member
  deriving DecidableEq, Repr

/-- A tag declared at file scope without a member list: the incomplete type
that a mention `struct tag` declares when no tag of that name is visible. -/
structure TagDecl where
  kind : AggKind
  tag : String
  deriving DecidableEq, Repr

/-- The structure tags a type names, from the outside in. -/
def CType.mentions : CType → List String
  | CType.int => []
  | CType.unsignedShortInt => []
  | CType.struct tag => [tag]
  | CType.pointer target => target.mentions

/-- The structure tags named by the members of an aggregate, in the order of
the member declarations. -/
def mentionedTags : List Member → List String
  | [] => []
  | m :: ms => m.type.mentions ++ mentionedTags ms

/-- State of a compilation unit at some point of its text. -/
structure CompState where
  /-- Preprocessor symbols currently defined. -/
  symbols : List String
  /-- System headers named by the `#include` lines processed so far, in order. -/
  included : List String
  /-- Aggregate definitions visible so far, in order of appearance. -/
  decls : List TypeDef
  /-- Tags declared so far by a mention alone, as incomplete types, in order. -/
  forward : List TagDecl := []
  deriving DecidableEq, Repr

namespace CompState

/-- The preprocessor operator `defined(m)`. -/
def defined (s : CompState) (m : String) : Bool :=
  decide (m ∈ s.symbols)

/-- The directive `#define m`. -/
def define (s : CompState) (m : String) : CompState :=
  { s with symbols := m :: s.symbols }

/-- The directive `#undef m`. -/
def undef (s : CompState) (m : String) : CompState :=
  { s with symbols := s.symbols.filter (fun x => decide (x ≠ m)) }

/-- The directive `#include <name>`: the header is noted as included and its
content, supplied by the platform, is processed. -/
def includeSys (s : CompState) (name : String) (content : CompState → CompState) : CompState :=
  content { s with included := s.included ++ [name] }

/-- Whether some declaration of `tag` as a tag is visible, be it a definition
or a mention that declared an incomplete type. -/
def tagVisible (s : CompState) (tag : String) : Bool :=
  decide (tag ∈ s.decls.map TypeDef.tag) || decide (tag ∈ s.forward.map TagDecl.tag)

/-- A mention `struct tag` in a declaration at file scope: when no declaration
of `tag` as a tag is visible it declares the tag, with an incomplete structure
type; otherwise it declares nothing. -/
def mention (s : CompState) (tag : String) : CompState :=
  if s.tagVisible tag then s
  else { s with forward := s.forward ++ [TagDecl.mk AggKind.struct tag] }

/-- A run of mentions, in order. -/
def mentionAll : List String → CompState → CompState
  | [], s => s
  | tag :: tags, s => mentionAll tags (s.mention tag)

/-- A type definition in the text becomes visible after the ones before it, and
the structure tags its members mention are declared where not yet visible. -/
def declare (s : CompState) (d : TypeDef) : CompState :=
  mentionAll (mentionedTags d.members) { s with decls := s.decls ++ [d] }

end CompState

/-- Lines 32-37: the definition of `union semun` written in the header. -/
def union_semun : TypeDef :=
  { kind := AggKind.union
    tag := "semun"
    members :=
      [ { type := CType.int, name := "val" },
        { type := CType.pointer (CType.struct "semid_ds"), name := "buf" },
        { type := CType.pointer CType.unsignedShortInt, name := "array" },
        { type := CType.pointer (CType.struct "seminfo"), name := "__buf" } ] }

/-- Lines 23 and 25: `#define j9shsemun_h` and `#include <sys/types.h>`, the
part of the body that precedes the conditional block. -/
def prologue (sys_types_h : CompState → CompState) (s : CompState) : CompState :=
  (s.define "j9shsemun_h").includeSys "sys/types.h" sys_types_h

/-- Lines 27-39: the conditional block around the definition of `union semun`. -/
def semun_block (t : CompState) : CompState :=
  if t.defined "__GNU_LIBRARY__" && !t.defined "_SEM_SEMUN_UNDEFINED" then
    t
  else
    if !t.defined "OSX" && !t.defined "__ANDROID__" then
      t.declare union_semun
    else
      t

/-- Lines 22-41: the whole header, body under the guard `#ifndef j9shsemun_h`. -/
def j9shsemun_h (sys_types_h : CompState → CompState) (s : CompState) : CompState :=
  if s.defined "j9shsemun_h" then
    s
  else
    semun_block (prologue sys_types_h s)

/-! ## Observations on states -/

/-- Whether a visible definition is a definition of `union semun`. -/
def isUnionSemun (d : TypeDef) : Bool :=
  decide (d.kind = AggKind.union) && decide (d.tag = "semun")

/-- Number of definitions of `union semun` visible in a state. -/
def semunCount (s : CompState) : Nat :=
  s.decls.countP isUnionSemun

/-- The visible definitions other than those of `union semun`. -/
def otherDecls (s : CompState) : List TypeDef :=
  s.decls.filter (fun d => !isUnionSemun d)

/-- The incomplete structure type that a first mention of `tag` declares in
state `t`: none when a declaration of `tag` as a tag is already visible. -/
def newTag (t : CompState) (tag : String) : List TagDecl :=
  if t.tagVisible tag then [] else [TagDecl.mk AggKind.struct tag]

/-- First condition of line 27: the GNU library is in use and its own
definition has not been declared absent. -/
def cond_gnu (t : CompState) : Bool :=
  t.defined "__GNU_LIBRARY__" && !t.defined "_SEM_SEMUN_UNDEFINED"

/-- Second condition, tested on line 30. -/
def cond_osx (t : CompState) : Bool :=
  t.defined "OSX"

/-- Third condition, tested on line 30. -/
def cond_android (t : CompState) : Bool :=
  t.defined "__ANDROID__"

/-- The state in which an inclusion started in `s` stands in front of line 27,
or in front of the final `#endif` when the guard skips the body: everything the
inclusion does apart from the conditional block has been done. -/
def entry (sys_types_h : CompState → CompState) (s : CompState) : CompState :=
  if s.defined "j9shsemun_h" then s else prologue sys_types_h s

/-- The definitions an inclusion started in `s` adds through its own text: what
is visible after the inclusion beyond what was visible at `entry`. -/
def output (sys_types_h : CompState → CompState) (s : CompState) : List TypeDef :=
  (j9shsemun_h sys_types_h s).decls.drop (entry sys_types_h s).decls.length

/-- The header included `n` times in a row. -/
def include_times (sys_types_h : CompState → CompState) : Nat → CompState → CompState
  | 0, s => s
  | n + 1, s => j9shsemun_h sys_types_h (include_times sys_types_h n s)

/-- A directive between two inclusions that changes which symbols are defined. -/
inductive Directive where
  | define (m : String)
  | undef (m : String)
  deriving DecidableEq, Repr

/-- Effect of one directive. -/
def Directive.apply (d : Directive) (s : CompState) : CompState :=
  match d with
  | Directive.define m => s.define m
  | Directive.undef m => s.undef m

/-- Effect of a run of directives, in order. -/
def applyAll : List Directive → CompState → CompState
  | [], s => s
  | d :: ds, s => applyAll ds (d.apply s)

/-- The inclusions after the first one: each is preceded by the directives of
its round. -/
def later_inclusions (sys_types_h : CompState → CompState) :
    List (List Directive) → CompState → CompState
  | [], s => s
  | ds :: rounds, s => later_inclusions sys_types_h rounds (j9shsemun_h sys_types_h (applyAll ds s))

/-- A compilation unit that includes the header once and then once more per
round, after the directives of the round. -/
def unit_run (sys_types_h : CompState → CompState) (rounds : List (List Directive))
    (s : CompState) : CompState :=
  later_inclusions sys_types_h rounds (j9shsemun_h sys_types_h s)

/-- The definitions added by the header itself during the inclusions after the
first one, in order. -/
def later_outputs (sys_types_h : CompState → CompState) :
    List (List Directive) → CompState → List TypeDef
  | [], _ => []
  | ds :: rounds, s =>
      output sys_types_h (applyAll ds s) ++
        later_outputs sys_types_h rounds (j9shsemun_h sys_types_h (applyAll ds s))

/-- The definitions added by the header itself during all inclusions of a
compilation unit, in order. -/
def unit_outputs (sys_types_h : CompState → CompState) (rounds : List (List Directive))
    (s : CompState) : List TypeDef :=
  output sys_types_h s ++ later_outputs sys_types_h rounds (j9shsemun_h sys_types_h s)

/-- A `<sys/types.h>` that neither defines a symbol nor declares an aggregate
of interest. -/
def sys_types_inert : CompState → CompState :=
  fun s => s

/-- A `<sys/types.h>` of the GNU library, which announces the library. -/
def sys_types_gnu : CompState → CompState :=
  fun s => s.define "__GNU_LIBRARY__"

/-- The state at the start of a compilation unit with the given symbols
predefined. -/
def start (symbols : List String) : CompState :=
  { symbols := symbols, included := [], decls := [] }

/-! ## Lemmas on the conditional block and the guard -/

theorem mention_frame (s : CompState) (tag : String) :
    (s.mention tag).symbols = s.symbols ∧ (s.mention tag).included = s.included ∧
    (s.mention tag).decls = s.decls := by
  unfold CompState.mention
  split <;> exact ⟨rfl, rfl, rfl⟩

theorem mentionAll_frame (tags : List String) (s : CompState) :
    (CompState.mentionAll tags s).symbols = s.symbols ∧
    (CompState.mentionAll tags s).included = s.included ∧
    (CompState.mentionAll tags s).decls = s.decls := by
  induction tags generalizing s with
  | nil => exact ⟨rfl, rfl, rfl⟩
  | cons tag tags ih =>
    have h := ih (s.mention tag)
    have hm := mention_frame s tag
    simp only [CompState.mentionAll]
    exact ⟨h.1.trans hm.1, h.2.1.trans hm.2.1, h.2.2.trans hm.2.2⟩

theorem declare_symbols (s : CompState) (d : TypeDef) : (s.declare d).symbols = s.symbols := by
  unfold CompState.declare
  exact (mentionAll_frame _ _).1

theorem declare_included (s : CompState) (d : TypeDef) :
    (s.declare d).included = s.included := by
  unfold CompState.declare
  exact (mentionAll_frame _ _).2.1

theorem declare_decls (s : CompState) (d : TypeDef) : (s.declare d).decls = s.decls ++ [d] := by
  unfold CompState.declare
  exact (mentionAll_frame _ _).2.2

theorem declare_union_semun_forward (t : CompState) :
    (t.declare union_semun).forward =
      t.forward ++ newTag t "semid_ds" ++ newTag t "seminfo" := by
  have h1 : ∀ x : String, x ≠ "semun" →
      CompState.tagVisible
        { symbols := t.symbols, included := t.included, decls := t.decls ++ [union_semun],
          forward := t.forward } x = t.tagVisible x := by
    intro x hx
    simp [CompState.tagVisible, union_semun, hx]
  have hsd : CompState.tagVisible
        { symbols := t.symbols, included := t.included, decls := t.decls ++ [union_semun],
          forward := t.forward } "semid_ds" = t.tagVisible "semid_ds" := h1 _ (by decide)
  have hsi : CompState.tagVisible
        { symbols := t.symbols, included := t.included, decls := t.decls ++ [union_semun],
          forward := t.forward } "seminfo" = t.tagVisible "seminfo" := h1 _ (by decide)
  have hsi2 : CompState.tagVisible
        { symbols := t.symbols, included := t.included, decls := t.decls ++ [union_semun],
          forward := t.forward ++ [TagDecl.mk AggKind.struct "semid_ds"] } "seminfo"
        = t.tagVisible "seminfo" := by
    rw [← hsi]
    simp [CompState.tagVisible]
  unfold CompState.declare newTag
  simp only [union_semun, mentionedTags, CType.mentions, List.nil_append, List.append_nil,
    List.singleton_append, CompState.mentionAll, CompState.mention]
  simp only [union_semun] at hsd hsi hsi2
  rw [hsd]
  cases hv1 : t.tagVisible "semid_ds"
  · simp only [Bool.false_eq_true, if_false]
    rw [hsi2]
    cases hv2 : t.tagVisible "seminfo" <;> simp
  · simp only [if_true]
    rw [hsi]
    cases hv2 : t.tagVisible "seminfo" <;> simp

theorem semun_block_symbols (t : CompState) : (semun_block t).symbols = t.symbols := by
  unfold semun_block
  split
  · rfl
  · split
    · exact declare_symbols _ _
    · rfl

theorem semun_block_included (t : CompState) : (semun_block t).included = t.included := by
  unfold semun_block
  split
  · rfl
  · split
    · exact declare_included _ _
    · rfl

theorem semun_block_defined (t : CompState) (m : String) :
    (semun_block t).defined m = t.defined m := by
  simp [CompState.defined, semun_block_symbols]

theorem semun_block_decls (t : CompState) :
    (semun_block t).decls =
      t.decls ++ (if cond_gnu t || cond_osx t || cond_android t then [] else [union_semun]) := by
  unfold semun_block cond_gnu cond_osx cond_android
  cases t.defined "__GNU_LIBRARY__" <;> cases t.defined "_SEM_SEMUN_UNDEFINED" <;>
    cases t.defined "OSX" <;> cases t.defined "__ANDROID__" <;>
    simp [declare_decls]

theorem semun_block_skip (t : CompState)
    (h : (cond_gnu t || cond_osx t || cond_android t) = true) : semun_block t = t := by
  unfold semun_block cond_gnu cond_osx cond_android at *
  revert h
  cases t.defined "__GNU_LIBRARY__" <;> cases t.defined "_SEM_SEMUN_UNDEFINED" <;>
    cases t.defined "OSX" <;> cases t.defined "__ANDROID__" <;>
    simp

theorem semun_block_declare (t : CompState)
    (h : (cond_gnu t || cond_osx t || cond_android t) = false) :
    semun_block t = t.declare union_semun := by
  unfold semun_block cond_gnu cond_osx cond_android at *
  revert h
  cases t.defined "__GNU_LIBRARY__" <;> cases t.defined "_SEM_SEMUN_UNDEFINED" <;>
    cases t.defined "OSX" <;> cases t.defined "__ANDROID__" <;>
    simp

theorem header_eq_block_entry (sys : CompState → CompState) (s : CompState) :
    j9shsemun_h sys s =
      if s.defined "j9shsemun_h" then entry sys s else semun_block (entry sys s) := by
  unfold j9shsemun_h entry
  cases s.defined "j9shsemun_h" <;> simp

theorem header_decls (sys : CompState → CompState) (s : CompState) :
    (j9shsemun_h sys s).decls =
      (entry sys s).decls ++
        (if s.defined "j9shsemun_h" || cond_gnu (entry sys s) || cond_osx (entry sys s)
              || cond_android (entry sys s)
          then [] else [union_semun]) := by
  rw [header_eq_block_entry]
  cases hg : s.defined "j9shsemun_h"
  · simp [semun_block_decls]
  · simp

theorem output_eq (sys : CompState → CompState) (s : CompState) :
    output sys s =
      if s.defined "j9shsemun_h" || cond_gnu (entry sys s) || cond_osx (entry sys s)
            || cond_android (entry sys s)
        then [] else [union_semun] := by
  unfold output
  rw [header_decls]
  simp

theorem header_symbols (sys : CompState → CompState) (s : CompState) :
    (j9shsemun_h sys s).symbols = (entry sys s).symbols := by
  rw [header_eq_block_entry]
  cases s.defined "j9shsemun_h" <;> simp [semun_block_symbols]

theorem header_included (sys : CompState → CompState) (s : CompState) :
    (j9shsemun_h sys s).included = (entry sys s).included := by
  rw [header_eq_block_entry]
  cases s.defined "j9shsemun_h" <;> simp [semun_block_included]

theorem semun_block_forward (t : CompState) :
    (semun_block t).forward =
      t.forward ++
        (if cond_gnu t || cond_osx t || cond_android t then []
          else newTag t "semid_ds" ++ newTag t "seminfo") := by
  cases hc : (cond_gnu t || cond_osx t || cond_android t)
  · rw [semun_block_declare t hc, declare_union_semun_forward]
    simp [List.append_assoc]
  · rw [semun_block_skip t hc]
    simp

theorem header_forward (sys : CompState → CompState) (s : CompState) :
    (j9shsemun_h sys s).forward =
      (entry sys s).forward ++
        (if s.defined "j9shsemun_h" || cond_gnu (entry sys s) || cond_osx (entry sys s)
              || cond_android (entry sys s)
          then [] else newTag (entry sys s) "semid_ds" ++ newTag (entry sys s) "seminfo") := by
  rw [header_eq_block_entry]
  cases hg : s.defined "j9shsemun_h"
  · simp [semun_block_forward]
  · simp

theorem entry_guard (sys : CompState → CompState) (s : CompState)
    (hsys : ∀ t : CompState, t.defined "j9shsemun_h" = true → (sys t).defined "j9shsemun_h" = true) :
    (entry sys s).defined "j9shsemun_h" = true := by
  unfold entry
  cases hg : s.defined "j9shsemun_h"
  · simp only [Bool.false_eq_true, if_false]
    unfold prologue CompState.includeSys
    apply hsys
    simp [CompState.defined, CompState.define]
  · simpa using hg

theorem header_guard (sys : CompState → CompState) (s : CompState)
    (hsys : ∀ t : CompState, t.defined "j9shsemun_h" = true → (sys t).defined "j9shsemun_h" = true) :
    (j9shsemun_h sys s).defined "j9shsemun_h" = true := by
  have h := entry_guard sys s hsys
  simp only [CompState.defined, header_symbols] at *
  exact h

theorem header_of_guard (sys : CompState → CompState) (s : CompState)
    (hg : s.defined "j9shsemun_h" = true) : j9shsemun_h sys s = s := by
  unfold j9shsemun_h
  simp [hg]

theorem semunCount_union_semun : isUnionSemun union_semun = true := by
  decide

theorem header_semunCount (sys : CompState → CompState) (s : CompState) :
    semunCount (j9shsemun_h sys s) =
      semunCount (entry sys s) +
        (if s.defined "j9shsemun_h" || cond_gnu (entry sys s) || cond_osx (entry sys s)
              || cond_android (entry sys s)
          then 0 else 1) := by
  unfold semunCount
  rw [header_decls, List.countP_append]
  split
  · simp
  · simp [List.countP_cons, semunCount_union_semun]

/-! ## C1: how many definitions of `union semun` are visible -/

/-- C1, refuted as stated: with the GNU library announced and no platform header
that defines the union included, no definition of `union semun` is visible
after the inclusion; and where a platform header has already defined the union
and none of the tested symbols is defined, two are visible. -/
theorem C1_visible_count_counterexample :
    semunCount (j9shsemun_h sys_types_inert (start ["__GNU_LIBRARY__"])) = 0 ∧
    semunCount (j9shsemun_h sys_types_inert
        { symbols := [], included := ["sys/sem.h"], decls := [union_semun] }) = 2 := by
  constructor <;> decide

/-- C1, amended: after an inclusion the number of visible definitions of
`union semun` is the number the platform headers had made visible where the
conditional block is reached, plus the one of the header, which is there exactly
on a first inclusion where none of the three conditions holds; so exactly one is
visible precisely when the platform supplies one where the header is silent and
none where the header defines the union. -/
theorem C1_visible_count (sys : CompState → CompState) (s : CompState) :
    semunCount (j9shsemun_h sys s) =
        semunCount (entry sys s) + (output sys s).length ∧
    (output sys s).length =
        (if s.defined "j9shsemun_h" || cond_gnu (entry sys s) || cond_osx (entry sys s)
              || cond_android (entry sys s)
          then 0 else 1) ∧
    (semunCount (j9shsemun_h sys s) = 1 ↔
        semunCount (entry sys s) =
          (if s.defined "j9shsemun_h" || cond_gnu (entry sys s) || cond_osx (entry sys s)
                || cond_android (entry sys s)
            then 1 else 0)) := by
  rw [header_semunCount, output_eq]
  split <;> simp

/-! ## C2: the header defines the union when no condition holds -/

/-- C2: on a first inclusion (guard not yet defined), when at the conditional
block it is not the case that `__GNU_LIBRARY__` is defined with
`_SEM_SEMUN_UNDEFINED` undefined, and neither `OSX` nor `__ANDROID__` is defined,
the header adds its own definition of `union semun` after everything visible so
far, and adds nothing else. -/
theorem C2_emits_own_definition (sys : CompState → CompState) (s : CompState)
    (hfirst : s.defined "j9shsemun_h" = false)
    (hgnu : ¬ ((prologue sys s).defined "__GNU_LIBRARY__" = true ∧
               (prologue sys s).defined "_SEM_SEMUN_UNDEFINED" = false))
    (hosx : (prologue sys s).defined "OSX" = false)
    (handroid : (prologue sys s).defined "__ANDROID__" = false) :
    j9shsemun_h sys s = (prologue sys s).declare union_semun ∧
    (j9shsemun_h sys s).decls = (prologue sys s).decls ++ [union_semun] ∧
    output sys s = [union_semun] := by
  have hentry : entry sys s = prologue sys s := by simp [entry, hfirst]
  have hc : (cond_gnu (prologue sys s) || cond_osx (prologue sys s)
      || cond_android (prologue sys s)) = false := by
    unfold cond_gnu cond_osx cond_android
    rw [hosx, handroid]
    revert hgnu
    cases (prologue sys s).defined "__GNU_LIBRARY__" <;>
      cases (prologue sys s).defined "_SEM_SEMUN_UNDEFINED" <;> simp
  have hstate : j9shsemun_h sys s = (prologue sys s).declare union_semun := by
    rw [header_eq_block_entry, hentry, hfirst]
    simpa using semun_block_declare _ hc
  refine ⟨hstate, ?_, ?_⟩
  · rw [hstate]
    exact declare_decls _ _
  · rw [output_eq, hentry, hfirst]
    simp only [Bool.false_or, hc]
    rfl

/-- C2 at a concrete input: the GNU library is announced and its default is
suppressed by `_SEM_SEMUN_UNDEFINED`. -/
theorem C2_emits_own_definition_witness :
    output sys_types_gnu (start ["_SEM_SEMUN_UNDEFINED"]) = [union_semun] :=
  (C2_emits_own_definition sys_types_gnu (start ["_SEM_SEMUN_UNDEFINED"])
    (by decide) (by decide) (by decide) (by decide)).2.2

/-! ## C3: the header is silent when a condition holds -/

/-- C3: when at least one of the three conditions holds where the inclusion
evaluates them, the header adds no definition: the state after the inclusion is
the one reached in front of the conditional block.  The first disjunct does not
mention `OSX` or `__ANDROID__`, the other two do not mention `__GNU_LIBRARY__` or
`_SEM_SEMUN_UNDEFINED`. -/
theorem C3_emits_nothing (sys : CompState → CompState) (s : CompState)
    (h : ((entry sys s).defined "__GNU_LIBRARY__" = true ∧
            (entry sys s).defined "_SEM_SEMUN_UNDEFINED" = false) ∨
         (entry sys s).defined "OSX" = true ∨
         (entry sys s).defined "__ANDROID__" = true) :
    j9shsemun_h sys s = entry sys s ∧ output sys s = [] := by
  have hc : (cond_gnu (entry sys s) || cond_osx (entry sys s)
      || cond_android (entry sys s)) = true := by
    unfold cond_gnu cond_osx cond_android
    rcases h with ⟨h1, h2⟩ | h | h
    · simp [h1, h2]
    · simp [h]
    · simp [h]
  constructor
  · rw [header_eq_block_entry]
    split
    · rfl
    · exact semun_block_skip _ hc
  · rw [output_eq]
    have : (s.defined "j9shsemun_h" || cond_gnu (entry sys s) || cond_osx (entry sys s)
        || cond_android (entry sys s)) = true := by
      rw [Bool.or_assoc, Bool.or_assoc, ← Bool.or_assoc (cond_gnu _), hc]
      simp
    simp [this]

/-- C3 at a concrete input: `OSX` is defined together with
`_SEM_SEMUN_UNDEFINED`, and nothing is added. -/
theorem C3_emits_nothing_witness :
    output sys_types_inert (start ["OSX", "_SEM_SEMUN_UNDEFINED"]) = [] :=
  (C3_emits_nothing sys_types_inert (start ["OSX", "_SEM_SEMUN_UNDEFINED"])
    (Or.inr (Or.inl (by decide)))).2

/-! ## C4: the shape of the definition written in the header -/

/-- C4: every definition the header adds through its own text is a union with
tag `semun` and exactly four members, in this order: `int val`,
`struct semid_ds* buf`, `unsigned short int* array`, `struct seminfo* __buf`;
there is no further member, so none that stores a discriminant. -/
theorem C4_union_shape (sys : CompState → CompState) (s : CompState) (d : TypeDef)
    (hd : d ∈ output sys s) :
    d.kind = AggKind.union ∧ d.tag = "semun" ∧ d.members.length = 4 ∧
    d.members =
      [ Member.mk CType.int "val",
        Member.mk (CType.pointer (CType.struct "semid_ds")) "buf",
        Member.mk (CType.pointer CType.unsignedShortInt) "array",
        Member.mk (CType.pointer (CType.struct "seminfo")) "__buf" ] := by
  rw [output_eq] at hd
  split at hd
  · simp at hd
  · simp only [List.mem_singleton] at hd
    subst hd
    exact ⟨rfl, rfl, rfl, rfl⟩

/-- C4 at a concrete input: a first inclusion with no symbol defined adds the
four-member union. -/
theorem C4_union_shape_witness :
    union_semun ∈ output sys_types_inert (start []) ∧ union_semun.members.length = 4 :=
  ⟨by decide, (C4_union_shape sys_types_inert (start []) union_semun (by decide)).2.2.1⟩

theorem include_times_of_guard (sys : CompState → CompState) (n : Nat) (s : CompState)
    (hg : s.defined "j9shsemun_h" = true) : include_times sys n s = s := by
  induction n with
  | zero => rfl
  | succ k ih =>
    simp only [include_times, ih]
    exact header_of_guard sys s hg

theorem include_times_succ (sys : CompState → CompState) (n : Nat) (s : CompState) :
    include_times sys (n + 1) s = include_times sys n (j9shsemun_h sys s) := by
  induction n with
  | zero => rfl
  | succ k ih =>
    show j9shsemun_h sys (include_times sys (k + 1) s) = _
    rw [ih]
    rfl

theorem output_of_guard (sys : CompState → CompState) (s : CompState)
    (hg : s.defined "j9shsemun_h" = true) : output sys s = [] := by
  rw [output_eq, hg]
  simp

theorem directive_apply_decls (d : Directive) (s : CompState) : (d.apply s).decls = s.decls := by
  cases d <;> rfl

theorem applyAll_decls (ds : List Directive) (s : CompState) : (applyAll ds s).decls = s.decls := by
  induction ds generalizing s with
  | nil => rfl
  | cons d ds ih =>
    simp only [applyAll, ih, directive_apply_decls]

theorem directive_apply_guard (d : Directive) (s : CompState)
    (hd : d ≠ Directive.undef "j9shsemun_h") (hg : s.defined "j9shsemun_h" = true) :
    (d.apply s).defined "j9shsemun_h" = true := by
  cases d with
  | define m =>
    simp only [CompState.defined, decide_eq_true_eq] at hg
    simp [Directive.apply, CompState.defined, CompState.define, hg]
  | undef m =>
    have hm : m ≠ "j9shsemun_h" := fun h => hd (by rw [h])
    simp only [CompState.defined, decide_eq_true_eq] at hg
    simp only [Directive.apply, CompState.defined, CompState.undef, decide_eq_true_eq,
      List.mem_filter]
    exact ⟨hg, fun h => hm h.symm⟩

theorem applyAll_guard (ds : List Directive) (s : CompState)
    (hds : ∀ d ∈ ds, d ≠ Directive.undef "j9shsemun_h") (hg : s.defined "j9shsemun_h" = true) :
    (applyAll ds s).defined "j9shsemun_h" = true := by
  induction ds generalizing s with
  | nil => exact hg
  | cons d ds ih =>
    simp only [applyAll]
    apply ih
    · intro e he
      exact hds e (List.mem_cons_of_mem _ he)
    · exact directive_apply_guard d s (hds d (List.mem_cons_self _ _)) hg

theorem later_inclusions_of_guard (sys : CompState → CompState) (rounds : List (List Directive))
    (s : CompState)
    (hrounds : ∀ ds ∈ rounds, ∀ d ∈ ds, d ≠ Directive.undef "j9shsemun_h")
    (hg : s.defined "j9shsemun_h" = true) :
    (later_inclusions sys rounds s).defined "j9shsemun_h" = true ∧
    (later_inclusions sys rounds s).decls = s.decls ∧
    later_outputs sys rounds s = [] := by
  induction rounds generalizing s with
  | nil => exact ⟨hg, rfl, rfl⟩
  | cons ds rounds ih =>
    have hds := hrounds ds (List.mem_cons_self _ _)
    have hg1 := applyAll_guard ds s hds hg
    have hstep := header_of_guard sys (applyAll ds s) hg1
    have hrest := ih (applyAll ds s) (fun e he => hrounds e (List.mem_cons_of_mem _ he)) hg1
    simp only [later_inclusions, later_outputs, hstep, output_of_guard sys _ hg1,
      List.nil_append]
    exact ⟨hrest.1, by rw [hrest.2.1, applyAll_decls], hrest.2.2⟩

/-! ## C5: a repeated inclusion does nothing -/

/-- C5: provided `<sys/types.h>` does not undefine the guard symbol, including
the header again right after an inclusion leaves the state unchanged and adds
no definition, from every starting state; hence `n` inclusions in a row, for
`n` at least one, give the state, and so the definitions, of a single one. -/
theorem C5_inclusion_idempotent (sys : CompState → CompState) (s : CompState)
    (hsys : ∀ t : CompState, t.defined "j9shsemun_h" = true →
      (sys t).defined "j9shsemun_h" = true) :
    j9shsemun_h sys (j9shsemun_h sys s) = j9shsemun_h sys s ∧
    output sys (j9shsemun_h sys s) = [] ∧
    (∀ n : Nat, 1 ≤ n → include_times sys n s = j9shsemun_h sys s) ∧
    (∀ n : Nat, 1 ≤ n → (include_times sys n s).decls = (j9shsemun_h sys s).decls) := by
  have hg := header_guard sys s hsys
  have hn : ∀ n : Nat, 1 ≤ n → include_times sys n s = j9shsemun_h sys s := by
    intro n hn
    obtain ⟨k, rfl⟩ : ∃ k, n = k + 1 := ⟨n - 1, by omega⟩
    rw [include_times_succ]
    exact include_times_of_guard sys k _ hg
  refine ⟨header_of_guard sys _ hg, output_of_guard sys _ hg, hn, ?_⟩
  intro n h1
  rw [hn n h1]

/-- C5 at a concrete input: three inclusions in a row, in a unit where the
header defines the union, leave exactly the one definition of the first. -/
theorem C5_inclusion_idempotent_witness :
    include_times sys_types_inert 3 (start []) = j9shsemun_h sys_types_inert (start []) ∧
    (j9shsemun_h sys_types_inert (start [])).decls = [union_semun] :=
  ⟨(C5_inclusion_idempotent sys_types_inert (start []) (fun _ h => h)).2.2.1 3 (by decide),
   by decide⟩

/-! ## C6: what an inclusion changes besides `union semun` -/

/-- C6, refuted as stated: in a unit with nothing defined, included or
declared, the inclusion leaves the guard symbol defined, `<sys/types.h>`
included and the structure tags `semid_ds` and `seminfo` declared, changes that
are not the declaration of `union semun`. -/
theorem C6_frame_counterexample :
    (start []).defined "j9shsemun_h" = false ∧
    (j9shsemun_h sys_types_inert (start [])).defined "j9shsemun_h" = true ∧
    (start []).symbols ≠ (j9shsemun_h sys_types_inert (start [])).symbols ∧
    (start []).included = [] ∧
    (j9shsemun_h sys_types_inert (start [])).included = ["sys/types.h"] ∧
    (start []).forward = [] ∧
    (j9shsemun_h sys_types_inert (start [])).forward =
      [TagDecl.mk AggKind.struct "semid_ds", TagDecl.mk AggKind.struct "seminfo"] := by
  decide

/-- C6, amended: when the guard symbol is already defined an inclusion changes
nothing at all.  Otherwise lines 23 and 25 add the guard symbol to the defined
symbols, add `<sys/types.h>` to the included headers and process its content;
after that the header changes neither the defined symbols, nor the included
headers, nor the definitions other than `union semun`, and the only other types
it declares are the incomplete structures `semid_ds` and `seminfo`, each exactly
when the header defines the union and no tag of that name is visible yet. -/
theorem C6_frame (sys : CompState → CompState) (s : CompState) :
    (s.defined "j9shsemun_h" = true → j9shsemun_h sys s = s) ∧
    (s.defined "j9shsemun_h" = false →
      prologue sys s =
        sys { s with symbols := "j9shsemun_h" :: s.symbols,
                     included := s.included ++ ["sys/types.h"] } ∧
      (j9shsemun_h sys s).symbols = (prologue sys s).symbols ∧
      (j9shsemun_h sys s).included = (prologue sys s).included ∧
      otherDecls (j9shsemun_h sys s) = otherDecls (prologue sys s) ∧
      (j9shsemun_h sys s).forward =
        (prologue sys s).forward ++
          (if cond_gnu (prologue sys s) || cond_osx (prologue sys s)
                || cond_android (prologue sys s)
            then []
            else newTag (prologue sys s) "semid_ds" ++ newTag (prologue sys s) "seminfo")) := by
  refine ⟨header_of_guard sys s, ?_⟩
  intro hg
  have hentry : entry sys s = prologue sys s := by simp [entry, hg]
  refine ⟨rfl, ?_, ?_, ?_, ?_⟩
  · rw [header_symbols, hentry]
  · rw [header_included, hentry]
  · unfold otherDecls
    rw [header_decls, hentry, List.filter_append]
    split
    · simp
    · simp [List.filter_cons, semunCount_union_semun]
  · rw [header_forward, hentry, hg]
    simp

/-- C6 at a concrete input: a first inclusion with an inert `<sys/types.h>` in
a unit where `struct semid_ds` is already defined leaves that definition as the
only one besides the union, and declares the tag `seminfo` alone. -/
theorem C6_frame_witness :
    otherDecls (j9shsemun_h sys_types_inert
        { symbols := ["LINUX"], included := ["sys/sem.h"],
          decls := [TypeDef.mk AggKind.struct "semid_ds" []] })
      = [TypeDef.mk AggKind.struct "semid_ds" []] ∧
    (j9shsemun_h sys_types_inert
        { symbols := ["LINUX"], included := ["sys/sem.h"],
          decls := [TypeDef.mk AggKind.struct "semid_ds" []] }).forward
      = [TagDecl.mk AggKind.struct "seminfo"] :=
  ⟨(((C6_frame sys_types_inert
        { symbols := ["LINUX"], included := ["sys/sem.h"],
          decls := [TypeDef.mk AggKind.struct "semid_ds" []] }).2
      (by decide)).2.2.2.1).trans (by decide),
   (((C6_frame sys_types_inert
        { symbols := ["LINUX"], included := ["sys/sem.h"],
          decls := [TypeDef.mk AggKind.struct "semid_ds" []] }).2
      (by decide)).2.2.2.2).trans (by decide)⟩

/-! ## C7: what the output of an inclusion depends on -/

/-- C7, refuted as stated: the start of a unit and the state right after a
first inclusion agree on the three conditions (none holds, before the inclusion
and where it evaluates them), yet an inclusion in the former adds the union and
an inclusion in the latter adds nothing, because the guard symbol differs. -/
theorem C7_three_conditions_counterexample :
    cond_gnu (start []) = cond_gnu (j9shsemun_h sys_types_inert (start [])) ∧
    cond_osx (start []) = cond_osx (j9shsemun_h sys_types_inert (start [])) ∧
    cond_android (start []) = cond_android (j9shsemun_h sys_types_inert (start [])) ∧
    cond_gnu (entry sys_types_inert (start [])) =
      cond_gnu (entry sys_types_inert (j9shsemun_h sys_types_inert (start []))) ∧
    cond_osx (entry sys_types_inert (start [])) =
      cond_osx (entry sys_types_inert (j9shsemun_h sys_types_inert (start []))) ∧
    cond_android (entry sys_types_inert (start [])) =
      cond_android (entry sys_types_inert (j9shsemun_h sys_types_inert (start []))) ∧
    output sys_types_inert (start []) = [union_semun] ∧
    output sys_types_inert (j9shsemun_h sys_types_inert (start [])) = [] := by
  decide

/-- C7, amended: the output of an inclusion is a function of the three
conditions, read where the inclusion evaluates them, together with whether the
guard symbol is already defined: two configurations that agree on these four
yield the same output, whatever else differs between them, be it other symbols,
visible definitions or the content of `<sys/types.h>`. -/
theorem C7_conditions_and_guard (sys1 sys2 : CompState → CompState) (s1 s2 : CompState)
    (hguard : s1.defined "j9shsemun_h" = s2.defined "j9shsemun_h")
    (hgnu : cond_gnu (entry sys1 s1) = cond_gnu (entry sys2 s2))
    (hosx : cond_osx (entry sys1 s1) = cond_osx (entry sys2 s2))
    (handroid : cond_android (entry sys1 s1) = cond_android (entry sys2 s2)) :
    output sys1 s1 = output sys2 s2 := by
  rw [output_eq, output_eq, hguard, hgnu, hosx, handroid]

/-- C7 at a concrete input: two units that differ in a platform symbol, in the
suppression symbol and in the platform header agree on the four inputs and both
get the union from the header. -/
theorem C7_conditions_and_guard_witness :
    output sys_types_inert (start ["LINUX"]) =
      output sys_types_gnu (start ["AIXPPC", "_SEM_SEMUN_UNDEFINED"]) ∧
    output sys_types_inert (start ["LINUX"]) = [union_semun] :=
  ⟨C7_conditions_and_guard sys_types_inert sys_types_gnu (start ["LINUX"])
      (start ["AIXPPC", "_SEM_SEMUN_UNDEFINED"]) (by decide) (by decide) (by decide) (by decide),
   by decide⟩

/-! ## C8: the first inclusion decides -/

/-- C8: in a unit that includes the header repeatedly, with arbitrary
definitions and undefinitions of symbols between the inclusions but none that
undefines the guard symbol (and a `<sys/types.h>` that does not undefine it
either), the guard symbol is defined after the first inclusion, whether or not
the union was added, and at the end; the inclusions after the first add nothing,
so that everything the header adds in the whole unit is what the first inclusion
adds, at most one definition; and when the guard symbol was undefined at the
start, the union is added exactly when none of the three conditions holds at
the first inclusion. -/
theorem C8_first_inclusion_wins (sys : CompState → CompState)
    (rounds : List (List Directive)) (s : CompState)
    (hsys : ∀ t : CompState, t.defined "j9shsemun_h" = true →
      (sys t).defined "j9shsemun_h" = true)
    (hrounds : ∀ ds ∈ rounds, ∀ d ∈ ds, d ≠ Directive.undef "j9shsemun_h") :
    (j9shsemun_h sys s).defined "j9shsemun_h" = true ∧
    (unit_run sys rounds s).defined "j9shsemun_h" = true ∧
    later_outputs sys rounds (j9shsemun_h sys s) = [] ∧
    unit_outputs sys rounds s = output sys s ∧
    (unit_outputs sys rounds s).length ≤ 1 ∧
    (unit_run sys rounds s).decls = (j9shsemun_h sys s).decls ∧
    (s.defined "j9shsemun_h" = false →
      unit_outputs sys rounds s =
        if cond_gnu (prologue sys s) || cond_osx (prologue sys s)
              || cond_android (prologue sys s)
          then [] else [union_semun]) := by
  have hg := header_guard sys s hsys
  have hlater := later_inclusions_of_guard sys rounds (j9shsemun_h sys s) hrounds hg
  have hout : unit_outputs sys rounds s = output sys s := by
    unfold unit_outputs
    rw [hlater.2.2, List.append_nil]
  refine ⟨hg, hlater.1, hlater.2.2, hout, ?_, hlater.2.1, ?_⟩
  · rw [hout, output_eq]
    split <;> simp
  · intro hfirst
    rw [hout, output_eq]
    simp [entry, hfirst]

/-- C8 at a concrete input: the first inclusion sees `__GNU_LIBRARY__` without
`_SEM_SEMUN_UNDEFINED`; the latter is defined and `__GNU_LIBRARY__` undefined
before a second and a third inclusion, and still nothing is added. -/
theorem C8_first_inclusion_wins_witness :
    unit_outputs sys_types_inert
        [[Directive.define "_SEM_SEMUN_UNDEFINED"], [ Directive.undef "__GNU_LIBRARY__"]]
        (start ["__GNU_LIBRARY__"]) = [] ∧
    output sys_types_inert
        ((start ["__GNU_LIBRARY__"]).define "_SEM_SEMUN_UNDEFINED") = [union_semun] :=
  ⟨((C8_first_inclusion_wins sys_types_inert
        [[Directive.define "_SEM_SEMUN_UNDEFINED"], [ Directive.undef "__GNU_LIBRARY__"]]
        (start ["__GNU_LIBRARY__"]) (fun _ h => h) (by decide)).2.2.2.1).trans (by decide),
   by decide⟩

end J9shsemun
